import Mathlib

/-
Verification of the per-frame filter pipeline implemented in
scripts/process_frame_lightweight.py (class LightweightAIProcessor).

Modelling conventions:
* A pixel is a triple of natural-number channels (uint8 values, channel
  indices 0/1/2 as in the numpy arrays of the source).  A frame is a
  height, a width, and a total pixel function; all source operations act
  pointwise or on index ranges, so the function view is exact.
* Machine floats of the source (numpy float64) are modelled by rationals.
  Constants such as 0.7, 0.2, 1.15 are taken at their decimal value; the
  binary64 rounding of the Python runtime can deviate from the rational
  value only within one ulp of the product, and no claim checked below
  depends on an input lying that close to a rounding boundary (the
  concrete counterexamples all sit at a distance of at least 1/510 from
  the nearest boundary).
* cv2 integer paths (cvtColor RGB2HSV and RGB2GRAY on uint8 data) are
  fixed-point algorithms and are reproduced exactly.
* cv2.GaussianBlur and cv2.bilateralFilter are modelled as abstract
  shape-preserving pixel-function transformers (their kernels never
  matter for the claims; their shape preservation is genuine cv2
  behaviour).  They are passed explicitly to the definitions that the
  source makes call them.
* cv2.cvtColor raises a cv2.error on an empty input matrix (the
  assertion !_src.empty()); the frame-level conversions therefore return
  an Except value, faithfully recording the one genuine raise point of
  the two later pipeline stages.  The MediaPipe inference calls
  (selfie segmentation, face detection) are external collaborators and
  enter the model as Except-valued inputs: an .error value stands for
  the call raising inside the try block of its stage.
-/

namespace Photobooth

/-- Round half to even on rationals, as cvRound of OpenCV does on
floating-point values (used by saturate_cast, convertScaleAbs,
addWeighted, multiply and the color conversion tables). -/
def cvRound (q : ℚ) : ℤ :=
  let f := ⌊q⌋
  let r := q - f
  if r < 1/2 then f
  else if 1/2 < r then f + 1
  else if f % 2 = 0 then f else f + 1

/-- saturate_cast to uint8: clamp an integer into [0, 255]. -/
def satCast8 (z : ℤ) : ℕ := (min 255 (max 0 z)).toNat

/-- Python int(): truncation of a rational toward zero. -/
def ratTrunc (q : ℚ) : ℤ := q.num / (q.den : ℤ)

/-- numpy astype(np.uint8) on a nonnegative float below 256: truncation
toward zero, i.e. the floor.  (On values outside [0, 256) the C cast is
modular; every use below is on convex combinations of uint8 data, which
stay in range.) -/
def trunc8 (q : ℚ) : ℕ := (⌊q⌋).toNat

/-- One pixel: three uint8 channels, indexed 0/1/2 exactly as the last
axis of the numpy arrays of the source (RGB order inside the pipeline;
an HSV-converted buffer reuses the same shape). -/
structure Pix where
  c0 : ℕ
  c1 : ℕ
  c2 : ℕ
deriving DecidableEq, Repr

/-- Channel access by index, for statements quantifying over channels. -/
def Pix.chan (p : Pix) : Fin 3 → ℕ
  | 0 => p.c0
  | 1 => p.c1
  | 2 => p.c2

/-- A pixel is valid when each channel is a uint8 value. -/
def Pix.Valid (p : Pix) : Prop := p.c0 ≤ 255 ∧ p.c1 ≤ 255 ∧ p.c2 ≤ 255

/-- A frame: height, width and a total pixel function (row index first,
as in numpy indexing frame[i, j]). -/
@[ext]
structure Frame where
  h : ℕ
  w : ℕ
  px : ℕ → ℕ → Pix

/-- All pixels of the frame are uint8 triples. -/
def Frame.Valid (f : Frame) : Prop := ∀ i j, (f.px i j).Valid

/-- The error raised by cv2.cvtColor when the source matrix is empty
(assertion failure !_src.empty()). -/
inductive CvErr where
  | emptyInput
deriving DecidableEq, Repr

/-- The filter parameter mapping, with the .get defaults of the source:
backgroundRemoval False, backgroundReplacement "blur", faceEnhancement
False, skinSmoothing/eyeBrightening/teethWhitening 0, brightness 0,
contrast 0, saturation 0, vintage False, colorFilter "none", blur 0. -/
structure Filters where
  backgroundRemoval : Bool
  backgroundReplacement : String
  faceEnhancement : Bool
  skinSmoothing : ℚ
  eyeBrightening : ℚ
  teethWhitening : ℚ
  brightness : ℤ
  contrast : ℤ
  saturation : ℤ
  vintage : Bool
  colorFilter : String
  blur : ℕ

/-- All parameters absent: the defaults listed above. -/
def defaultFilters : Filters :=
  ⟨false, "blur", false, 0, 0, 0, 0, 0, 0, false, "none", 0⟩

/-- cv2.convertScaleAbs on one channel value:
saturate_cast to uint8 of the rounded absolute value of alpha * x + beta. -/
def cvScaleAbsN (x : ℕ) (a b : ℚ) : ℕ := satCast8 (cvRound |a * x + b|)

/-- cv2.convertScaleAbs on one pixel. -/
def convertScaleAbsPix (p : Pix) (a b : ℚ) : Pix :=
  ⟨cvScaleAbsN p.c0 a b, cvScaleAbsN p.c1 a b, cvScaleAbsN p.c2 a b⟩

/-- cv2.convertScaleAbs on a whole frame. -/
def convertScaleAbs (f : Frame) (a b : ℚ) : Frame :=
  ⟨f.h, f.w, fun i j => convertScaleAbsPix (f.px i j) a b⟩

/-- The uint8 RGB2GRAY fixed-point formula of cv2.cvtColor:
Y = (R*4899 + G*9617 + B*1868 + 2^13) >> 14 (yuv_shift = 14). -/
def rgb2grayPix (p : Pix) : ℕ :=
  (4899 * p.c0 + 9617 * p.c1 + 1868 * p.c2 + 8192) / 16384

/-- A single-channel frame, as produced by cv2.COLOR_RGB2GRAY. -/
structure GrayFrame where
  h : ℕ
  w : ℕ
  px : ℕ → ℕ → ℕ

/-- cv2.cvtColor(..., cv2.COLOR_RGB2GRAY); raises on an empty matrix. -/
def cvtColorRGB2GRAY (f : Frame) : Except CvErr GrayFrame :=
  if f.h = 0 ∨ f.w = 0 then .error .emptyInput
  else .ok ⟨f.h, f.w, fun i j => rgb2grayPix (f.px i j)⟩

/-- cv2.cvtColor(..., cv2.COLOR_GRAY2RGB): replicate the channel. -/
def cvtColorGRAY2RGB (g : GrayFrame) : Except CvErr Frame :=
  if g.h = 0 ∨ g.w = 0 then .error .emptyInput
  else .ok ⟨g.h, g.w, fun i j => ⟨g.px i j, g.px i j, g.px i j⟩⟩

/-- sdiv_table of the cv2 uint8 RGB2HSV algorithm:
saturate_cast of (255 << 12) / i computed in double. -/
def sdivTable (i : ℕ) : ℤ := if i = 0 then 0 else cvRound ((1044480 : ℚ) / i)

/-- hdiv_table of the cv2 uint8 RGB2HSV algorithm:
saturate_cast of (180 << 12) / (6 i) computed in double. -/
def hdivTable (i : ℕ) : ℤ := if i = 0 then 0 else cvRound ((122880 : ℚ) / i)

/-- The exact uint8 fixed-point RGB2HSV algorithm of cv2.cvtColor
(hsv_shift = 12): V = max, S = (V - min) scaled by sdiv_table[V],
H in [0, 180) from the dominant-channel formula and hdiv_table[V - min]. -/
def rgb2hsvPix (p : Pix) : Pix :=
  let r : ℤ := p.c0
  let g : ℤ := p.c1
  let b : ℤ := p.c2
  let v : ℤ := max r (max g b)
  let vmin : ℤ := min r (min g b)
  let diff : ℤ := v - vmin
  let s : ℤ := Int.fdiv (diff * sdivTable v.toNat + 2048) 4096
  let hraw : ℤ :=
    if v = r then g - b
    else if v = g then b - r + 2 * diff
    else r - g + 4 * diff
  let h0 : ℤ := Int.fdiv (hraw * hdivTable diff.toNat + 2048) 4096
  let h : ℤ := if h0 < 0 then h0 + 180 else h0
  ⟨h.toNat, s.toNat, v.toNat⟩

/-- cv2.cvtColor(..., cv2.COLOR_RGB2HSV) on uint8 data. -/
def cvtColorRGB2HSV (f : Frame) : Except CvErr Frame :=
  if f.h = 0 ∨ f.w = 0 then .error .emptyInput
  else .ok ⟨f.h, f.w, fun i j => rgb2hsvPix (f.px i j)⟩

/-- The uint8 HSV2RGB conversion of cv2.cvtColor: the float algorithm
(h scaled by 6/180, s and v by 1/255, sector decomposition, output
channels saturate_cast of cvRound(x * 255)), carried out on rationals.
The while-loop normalisation of h into [0, 6) is expressed with a floor. -/
def hsv2rgbPix (p : Pix) : Pix :=
  if p.c1 = 0 then
    let y := satCast8 (cvRound ((p.c2 : ℚ) / 255 * 255))
    ⟨y, y, y⟩
  else
    let h0 : ℚ := (p.c0 : ℚ) * (6 / 180)
    let h1 : ℚ := h0 - 6 * ⌊h0 / 6⌋
    let sector : ℤ := ⌊h1⌋
    let fr : ℚ := h1 - sector
    let s : ℚ := (p.c1 : ℚ) / 255
    let v : ℚ := (p.c2 : ℚ) / 255
    let tab0 := v
    let tab1 := v * (1 - s)
    let tab2 := v * (1 - s * fr)
    let tab3 := v * (1 - s * (1 - fr))
    let out : ℚ → ℕ := fun x => satCast8 (cvRound (x * 255))
    -- sector_data rows {1,3,0} {1,0,2} {3,0,1} {0,2,1} {0,1,3} {2,1,0}
    -- give (b, g, r) = (tab[d0], tab[d1], tab[d2]) per sector.
    if sector = 0 then ⟨out tab0, out tab3, out tab1⟩
    else if sector = 1 then ⟨out tab2, out tab0, out tab1⟩
    else if sector = 2 then ⟨out tab1, out tab0, out tab3⟩
    else if sector = 3 then ⟨out tab1, out tab2, out tab0⟩
    else if sector = 4 then ⟨out tab3, out tab1, out tab0⟩
    else ⟨out tab0, out tab1, out tab2⟩

/-- cv2.cvtColor(..., cv2.COLOR_HSV2RGB) on uint8 data. -/
def cvtColorHSV2RGB (f : Frame) : Except CvErr Frame :=
  if f.h = 0 ∨ f.w = 0 then .error .emptyInput
  else .ok ⟨f.h, f.w, fun i j => hsv2rgbPix (f.px i j)⟩

/-- The shared broadcast expression of remove_background_lightweight,
lines 115 / 122 / 129 / 133 of the source:
(frame * mask_3d + background * (1 - mask_3d)).astype(np.uint8).
astype(np.uint8) truncates toward zero; the blend of uint8 data under a
mask in [0, 1] always lies in [0, 255], so no wrap occurs. -/
def composite (fg bg : Frame) (mask : ℕ → ℕ → ℚ) : Frame :=
  ⟨fg.h, fg.w, fun i j =>
    let m := mask i j
    ⟨trunc8 ((fg.px i j).c0 * m + (bg.px i j).c0 * (1 - m)),
     trunc8 ((fg.px i j).c1 * m + (bg.px i j).c1 * (1 - m)),
     trunc8 ((fg.px i j).c2 * m + (bg.px i j).c2 * (1 - m))⟩⟩

/-- The gradient background of the "gradient" replacement mode:
np.linspace(50, 200, h) down the rows, channels scaled by 0.8 / 0.9 / 1
and cast to uint8 (truncation). -/
def gradientBg (h w : ℕ) : Frame :=
  ⟨h, w, fun i _ =>
    let g : ℚ := if h ≤ 1 then 50 else 50 + i * 150 / (h - 1)
    ⟨trunc8 (g * (4/5)), trunc8 (g * (9/10)), trunc8 g⟩⟩

/-- The beach background: sky blue rows [0, h/2), sandy brown below. -/
def beachBg (h w : ℕ) : Frame :=
  ⟨h, w, fun i _ =>
    if i < h / 2 then ⟨135, 206, 235⟩ else ⟨238, 203, 173⟩⟩

/-- The default replacement background:
(frame * 0.3).astype(np.uint8), i.e. each channel truncated after the
scale by 0.3. -/
def darkenBg (f : Frame) : Frame :=
  ⟨f.h, f.w, fun i j =>
    ⟨trunc8 ((f.px i j).c0 * (3/10)),
     trunc8 ((f.px i j).c1 * (3/10)),
     trunc8 ((f.px i j).c2 * (3/10))⟩⟩

/-- Abstract cv2.GaussianBlur on a three-channel pixel function, indexed
by the (square) kernel size.  Shape preservation is built into the type. -/
def PxBlur : Type := ℕ → (ℕ → ℕ → Pix) → ℕ → ℕ → Pix

/-- Abstract cv2.GaussianBlur on a single-channel mask. -/
def GrayBlur : Type := ℕ → (ℕ → ℕ → ℕ) → ℕ → ℕ → ℕ

/-- Abstract cv2.bilateralFilter (kernel size argument; the two sigma
arguments are the constants 40 of the source and carry no information). -/
def Bilateral : Type := ℕ → (ℕ → ℕ → Pix) → ℕ → ℕ → Pix

/-- The raw segmentation probability mask handed over by the MediaPipe
collaborator: one rational per pixel. -/
def SegMask : Type := ℕ → ℕ → ℚ

/-- Result of self.selfie_segmentation.process(frame): .error models the
call raising inside the try block, .ok none models
results.segmentation_mask is None. -/
def SegResult : Type := Except String (Option SegMask)

/-- LightweightAIProcessor.remove_background_lightweight (lines 95-139).
The whole body is inside try/except; an exception (.error) or a missing
mask leaves the frame unchanged.  With a mask: threshold at 0.1,
scale to uint8, smooth with GaussianBlur(5), divide by 255, then blend
the frame with the mode-dependent background. -/
def remove_background_lightweight (gbP : PxBlur) (gbG : GrayBlur)
    (seg : SegResult) (frame : Frame) (replacement : String) : Frame :=
  match seg with
  | .error _ => frame
  | .ok none => frame
  | .ok (some segMask) =>
    let maskU8 : ℕ → ℕ → ℕ := fun i j => if 1/10 < segMask i j then 255 else 0
    let maskSmooth : ℕ → ℕ → ℚ := fun i j => (gbG 5 maskU8 i j : ℚ) / 255
    if replacement = "blur" then
      composite frame ⟨frame.h, frame.w, gbP 15 frame.px⟩ maskSmooth
    else if replacement = "gradient" then
      composite frame (gradientBg frame.h frame.w) maskSmooth
    else if replacement = "beach" then
      composite frame (beachBg frame.h frame.w) maskSmooth
    else
      composite frame (darkenBg frame) maskSmooth

/-- cv2.addWeighted: per channel saturate_cast of
cvRound(a * x + b * y + g). -/
def addWeighted (f g : Frame) (a b c : ℚ) : Frame :=
  ⟨f.h, f.w, fun i j =>
    let p := f.px i j
    let q := g.px i j
    ⟨satCast8 (cvRound (a * p.c0 + b * q.c0 + c)),
     satCast8 (cvRound (a * p.c1 + b * q.c1 + c)),
     satCast8 (cvRound (a * p.c2 + b * q.c2 + c))⟩⟩

/-- LightweightAIProcessor.smooth_skin_fast (lines 185-192): kernel size
max(5, int(10 * intensity)) forced odd, bilateral filter, then
addWeighted(face, 1 - intensity*0.7, smoothed, intensity*0.7, 0). -/
def smooth_skin_fast (bf : Bilateral) (face : Frame) (intensity : ℚ) : Frame :=
  let k0 : ℤ := ratTrunc (10 * intensity)
  let k1 : ℤ := max 5 k0
  let k : ℤ := if k1 % 2 = 0 then k1 + 1 else k1
  let smoothed : Frame := ⟨face.h, face.w, bf k.toNat face.px⟩
  addWeighted face smoothed (1 - intensity * (7/10)) (intensity * (7/10)) 0

/-- LightweightAIProcessor.brighten_eyes_fast (lines 194-200):
convertScaleAbs with alpha = 1 + intensity*0.2, beta = intensity*15 on
the rows [0, h/3) of the face region. -/
def brighten_eyes_fast (face : Frame) (intensity : ℚ) : Frame :=
  ⟨face.h, face.w, fun i j =>
    if i < face.h / 3 then
      convertScaleAbsPix (face.px i j) (1 + intensity * (1/5)) (intensity * 15)
    else face.px i j⟩

/-- LightweightAIProcessor.whiten_teeth_fast (lines 202-216): on the
rows [2h/3, h) of the face region, convert to HSV, add int(intensity*20)
to the value channel (cv2.add saturates), scale the saturation channel
by 1 - intensity*0.1 (cv2.multiply rounds then saturates), and convert
back to RGB. -/
def whiten_teeth_fast (face : Frame) (intensity : ℚ) : Frame :=
  ⟨face.h, face.w, fun i j =>
    if 2 * face.h / 3 ≤ i then
      let q := rgb2hsvPix (face.px i j)
      let v2 := satCast8 ((q.c2 : ℤ) + ratTrunc (intensity * 20))
      let s2 := satCast8 (cvRound ((q.c1 : ℚ) * (1 - intensity * (1/10))))
      hsv2rgbPix ⟨q.c0, s2, v2⟩
    else face.px i j⟩

/-- A face bounding box in absolute pixel coordinates, as obtained on
lines 152-155 from the relative MediaPipe box (the int() conversions of
the relative coordinates belong to the detection collaborator). -/
structure FaceBox where
  x : ℤ
  y : ℤ
  bw : ℤ
  bh : ℤ

/-- The clamp of lines 152-155: x = max(0, x), y = max(0, y),
width = min(w - x, bw), height = min(h - y, bh). -/
structure ClampedBox where
  x : ℤ
  y : ℤ
  cw : ℤ
  ch : ℤ

def clampFaceBox (h w : ℕ) (box : FaceBox) : ClampedBox :=
  ⟨max 0 box.x, max 0 box.y,
   min ((w : ℤ) - max 0 box.x) box.bw,
   min ((h : ℤ) - max 0 box.y) box.bh⟩

/-- face_region = frame[y:y+height, x:x+width].copy() -/
def crop (f : Frame) (x y cw ch : ℕ) : Frame :=
  ⟨ch, cw, fun i j => f.px (y + i) (x + j)⟩

/-- frame[y:y+height, x:x+width] = face_region -/
def writeRegion (f : Frame) (x y cw ch : ℕ) (region : Frame) : Frame :=
  ⟨f.h, f.w, fun i j =>
    if y ≤ i ∧ i < y + ch ∧ x ≤ j ∧ j < x + cw then region.px (i - y) (j - x)
    else f.px i j⟩

/-- The body of the detection loop of enhance_face_opencv (lines
147-177): clamp the box, and when the clamped width and height are
positive, crop the region, run the three region enhancers conditionally
on intensity/100 being positive, and write the region back. -/
def processDetection (bf : Bilateral) (frame : Frame) (filters : Filters)
    (box : FaceBox) : Frame :=
  let cb := clampFaceBox frame.h frame.w box
  if 0 < cb.cw ∧ 0 < cb.ch then
    let x := cb.x.toNat
    let y := cb.y.toNat
    let cw := cb.cw.toNat
    let ch := cb.ch.toNat
    let region0 := crop frame x y cw ch
    let smoothing := filters.skinSmoothing / 100
    let region1 := if 0 < smoothing then smooth_skin_fast bf region0 smoothing else region0
    let eyeB := filters.eyeBrightening / 100
    let region2 := if 0 < eyeB then brighten_eyes_fast region1 eyeB else region1
    let teeth := filters.teethWhitening / 100
    let region3 := if 0 < teeth then whiten_teeth_fast region2 teeth else region2
    writeRegion frame x y cw ch region3
  else frame

/-- Result of self.face_detection.process(frame): .error models the call
raising inside the try block, .ok [] models results.detections being
empty or None. -/
def DetResult : Type := Except String (List FaceBox)

/-- LightweightAIProcessor.enhance_face_opencv (lines 141-183).  The
whole body is inside try/except; an exception leaves the frame
unchanged; otherwise the detections are processed in order, each one
writing its enhanced region back into the frame. -/
def enhance_face_opencv (bf : Bilateral) (det : DetResult)
    (frame : Frame) (filters : Filters) : Frame :=
  match det with
  | .error _ => frame
  | .ok dets => dets.foldl (fun fr box => processDetection bf fr filters box) frame

/-- LightweightAIProcessor.adjust_colors_fast (lines 218-241): optional
brightness (convertScaleAbs beta = brightness*2), optional contrast
(convertScaleAbs alpha = 1 + contrast/100), optional saturation (HSV
round trip with the saturation channel scaled by 1 + saturation/100 and
clipped).  There is no try/except around this stage: the cvtColor calls
of the saturation branch can raise, and the error propagates. -/
def adjust_colors_fast (frame : Frame) (filters : Filters) :
    Except CvErr Frame :=
  let p1 := if filters.brightness ≠ 0
    then convertScaleAbs frame 1 ((filters.brightness : ℚ) * 2) else frame
  let p2 := if filters.contrast ≠ 0
    then convertScaleAbs p1 (1 + (filters.contrast : ℚ) / 100) 0 else p1
  if filters.saturation ≠ 0 then do
    let hsv ← cvtColorRGB2HSV p2
    let hsv2 : Frame := ⟨hsv.h, hsv.w, fun i j =>
      let q := hsv.px i j
      -- cv2.multiply then np.clip(·, 0, 255); the clip is a no-op on
      -- the already saturated uint8 data.
      ⟨q.c0, satCast8 (cvRound ((q.c1 : ℚ) * (1 + (filters.saturation : ℚ) / 100))), q.c2⟩⟩
    cvtColorHSV2RGB hsv2
  else .ok p2

/-- cv2.transform with sepia_filter.T (lines 249-252): each output
channel is the dot product of a column of sepia_filter with the input
pixel, rounded and saturated. -/
def sepiaTransformPix (p : Pix) : Pix :=
  ⟨satCast8 (cvRound ((393/1000) * p.c0 + (349/1000) * p.c1 + (272/1000) * p.c2)),
   satCast8 (cvRound ((769/1000) * p.c0 + (686/1000) * p.c1 + (534/1000) * p.c2)),
   satCast8 (cvRound ((189/1000) * p.c0 + (168/1000) * p.c1 + (131/1000) * p.c2))⟩

/-- Kernel size of the uniform blur (lines 286-288):
max(3, blur*2 + 1), then + 1 if even. -/
def blurKernelSize (b : ℕ) : ℕ :=
  let k := max 3 (b * 2 + 1)
  if k % 2 = 0 then k + 1 else k

/-- The vintage and colorFilter part of apply_effects_fast (lines
244-280), before the optional uniform blur. -/
def effectsColorPart (frame : Frame) (filters : Filters) :
    Except CvErr Frame :=
  let p1 := if filters.vintage
    then ⟨frame.h, frame.w, fun i j => sepiaTransformPix (frame.px i j)⟩
    else frame
  if filters.colorFilter = "warm" then
    .ok ⟨p1.h, p1.w, fun i j =>
      let q := p1.px i j
      ⟨trunc8 (min 255 ((q.c0 : ℚ) * (23/20))), q.c1,
       trunc8 (min 255 ((q.c2 : ℚ) * (17/20)))⟩⟩
  else if filters.colorFilter = "cool" then
    .ok ⟨p1.h, p1.w, fun i j =>
      let q := p1.px i j
      ⟨trunc8 (min 255 ((q.c0 : ℚ) * (17/20))), q.c1,
       trunc8 (min 255 ((q.c2 : ℚ) * (23/20)))⟩⟩
  else if filters.colorFilter = "bw" then do
    let g ← cvtColorRGB2GRAY p1
    cvtColorGRAY2RGB g
  else if filters.colorFilter = "sepia" then do
    let g ← cvtColorRGB2GRAY p1
    let rgb ← cvtColorGRAY2RGB g
    .ok ⟨rgb.h, rgb.w, fun i j =>
      let q := rgb.px i j
      ⟨trunc8 (min 255 ((q.c0 : ℚ) * (4/5))),
       trunc8 (min 255 ((q.c1 : ℚ) * (9/10))), q.c2⟩⟩
  else if filters.colorFilter = "vibrant" then do
    let hsv ← cvtColorRGB2HSV p1
    let hsv2 : Frame := ⟨hsv.h, hsv.w, fun i j =>
      let q := hsv.px i j
      ⟨q.c0, satCast8 (cvRound ((q.c1 : ℚ) * (13/10))), q.c2⟩⟩
    cvtColorHSV2RGB hsv2
  else .ok p1

/-- LightweightAIProcessor.apply_effects_fast (lines 243-291): vintage
sepia matrix, colorFilter modes, then the uniform GaussianBlur applied
only when blur > 0 and backgroundRemoval is not set.  No try/except:
errors propagate. -/
def apply_effects_fast (gbP : PxBlur) (frame : Frame) (filters : Filters) :
    Except CvErr Frame := do
  let p2 ← effectsColorPart frame filters
  if 0 < filters.blur ∧ filters.backgroundRemoval = false then
    .ok ⟨p2.h, p2.w, gbP (blurKernelSize filters.blur) p2.px⟩
  else .ok p2

/-- LightweightAIProcessor.apply_filters (lines 76-93): copy the frame,
then background removal (if enabled), face enhancement (if enabled),
color adjustments, special effects, in that fixed order.  The first two
stages catch their own exceptions internally; the last two have no
catch, so their errors reach the caller of apply_filters. -/
def apply_filters (gbP : PxBlur) (gbG : GrayBlur) (bf : Bilateral)
    (seg : SegResult) (det : DetResult)
    (frame : Frame) (filters : Filters) : Except CvErr Frame := do
  let processed := frame
  let processed := if filters.backgroundRemoval
    then remove_background_lightweight gbP gbG seg processed filters.backgroundReplacement
    else processed
  let processed := if filters.faceEnhancement
    then enhance_face_opencv bf det processed filters
    else processed
  let processed ← adjust_colors_fast processed filters
  apply_effects_fast gbP processed filters

/-
Buffer-identity model.  The numpy arrays of the source are mutable
buffers; whether apply_filters mutates its CALLER's buffer is a heap
property, modelled here by an allocation heap of frames.  Each source
operation either allocates a fresh buffer (array-producing expressions,
.copy()) or writes in place (slice assignment frame[...] = region, used
by enhance_face_opencv on its argument).  The pure functions above give
the contents; the heap level records only which buffer each statement
touches, following the source statement by statement.
-/

/-- A heap of frame buffers: allocation counter plus contents. -/
structure Heap where
  hnext : ℕ
  buf : ℕ → Frame

/-- Allocate a fresh buffer holding f, returning its reference. -/
def Heap.alloc (σ : Heap) (f : Frame) : Heap × ℕ :=
  (⟨σ.hnext + 1, fun i => if i = σ.hnext then f else σ.buf i⟩, σ.hnext)

/-- Overwrite the buffer at r in place. -/
def Heap.write (σ : Heap) (r : ℕ) (f : Frame) : Heap :=
  ⟨σ.hnext, fun i => if i = r then f else σ.buf i⟩

/-- remove_background_lightweight at heap level: the body only rebinds
the local name frame to freshly allocated arrays (the broadcast
expressions allocate); the argument buffer is never written.  When no
work is done the function returns its argument reference unchanged. -/
def remove_background_heap (gbP : PxBlur) (gbG : GrayBlur) (σ : Heap)
    (r : ℕ) (seg : SegResult) (replacement : String) : Heap × ℕ :=
  match seg with
  | .error _ => (σ, r)
  | .ok none => (σ, r)
  | .ok (some m) =>
      σ.alloc (remove_background_lightweight gbP gbG (.ok (some m)) (σ.buf r) replacement)

/-- enhance_face_opencv at heap level: the slice assignment
frame[y:y+height, x:x+width] = face_region writes into the argument
buffer in place; the function returns its argument reference. -/
def enhance_face_heap (bf : Bilateral) (σ : Heap) (r : ℕ)
    (det : DetResult) (filters : Filters) : Heap × ℕ :=
  match det with
  | .error _ => (σ, r)
  | .ok dets =>
      (σ.write r (enhance_face_opencv bf (.ok dets) (σ.buf r) filters), r)

/-- adjust_colors_fast at heap level: processed = frame.copy() plus
rebinding to fresh arrays; on success the result is a fresh buffer, the
argument buffer is never written. -/
def adjust_colors_heap (σ : Heap) (r : ℕ) (filters : Filters) :
    Heap × Except CvErr ℕ :=
  match adjust_colors_fast (σ.buf r) filters with
  | .ok f => ((σ.alloc f).1, .ok (σ.alloc f).2)
  | .error e => (σ, .error e)

/-- apply_effects_fast at heap level: same discipline as
adjust_colors_heap (processed = frame.copy(), then rebinding). -/
def apply_effects_heap (gbP : PxBlur) (σ : Heap) (r : ℕ)
    (filters : Filters) : Heap × Except CvErr ℕ :=
  match apply_effects_fast gbP (σ.buf r) filters with
  | .ok f => ((σ.alloc f).1, .ok (σ.alloc f).2)
  | .error e => (σ, .error e)

/-- The guarded BackgroundStage invocation of apply_filters
(lines 80-81) at heap level. -/
def pipeHeap1 (gbP : PxBlur) (gbG : GrayBlur) (σr : Heap × ℕ)
    (seg : SegResult) (filters : Filters) : Heap × ℕ :=
  if filters.backgroundRemoval
  then remove_background_heap gbP gbG σr.1 σr.2 seg filters.backgroundReplacement
  else σr

/-- The guarded FaceStage invocation of apply_filters (lines 84-85) at
heap level. -/
def pipeHeap2 (bf : Bilateral) (σr : Heap × ℕ) (det : DetResult)
    (filters : Filters) : Heap × ℕ :=
  if filters.faceEnhancement
  then enhance_face_heap bf σr.1 σr.2 det filters
  else σr

/-- apply_filters at heap level (lines 76-93): processed = frame.copy()
allocates, then the four stages run on the copy; the caller's buffer r
is only ever read. -/
def apply_filters_heap (gbP : PxBlur) (gbG : GrayBlur) (bf : Bilateral)
    (σ : Heap) (r : ℕ) (seg : SegResult) (det : DetResult)
    (filters : Filters) : Heap × Except CvErr ℕ :=
  let a := σ.alloc (σ.buf r)
  let b := pipeHeap1 gbP gbG a seg filters
  let c := pipeHeap2 bf b det filters
  match adjust_colors_heap c.1 c.2 filters with
  | (σ3, .error e) => (σ3, .error e)
  | (σ3, .ok p3) => apply_effects_heap gbP σ3 p3 filters

/- Helper lemmas. -/

theorem cvRound_natCast (n : ℕ) : cvRound (n : ℚ) = n := by
  simp [cvRound]

theorem satCast8_natCast (n : ℕ) (h : n ≤ 255) : satCast8 (n : ℤ) = n := by
  simp only [satCast8]
  omega

theorem cvScaleAbsN_one_zero (x : ℕ) (h : x ≤ 255) : cvScaleAbsN x 1 0 = x := by
  simp only [cvScaleAbsN, one_mul, add_zero, Nat.abs_cast, cvRound_natCast]
  exact satCast8_natCast x h

theorem cvtColorRGB2HSV_empty (f : Frame) (h : f.h = 0 ∨ f.w = 0) :
    cvtColorRGB2HSV f = .error .emptyInput := by
  simp only [cvtColorRGB2HSV]
  rw [if_pos h]

theorem ite_convertScaleAbs_h (c : Prop) [Decidable c] (f : Frame) (a b : ℚ) :
    (if c then convertScaleAbs f a b else f).h = f.h := by
  split <;> rfl

theorem adjust_colors_empty_err (frame : Frame) (filters : Filters)
    (hh : frame.h = 0) (hs : filters.saturation ≠ 0) :
    adjust_colors_fast frame filters = .error .emptyInput := by
  simp only [adjust_colors_fast]
  rw [if_pos hs]
  rw [cvtColorRGB2HSV_empty _ (Or.inl (by
    rw [ite_convertScaleAbs_h, ite_convertScaleAbs_h]
    exact hh))]
  rfl

theorem apply_filters_empty_err (gbP : PxBlur) (gbG : GrayBlur) (bf : Bilateral)
    (seg : SegResult) (det : DetResult) (frame : Frame) (filters : Filters)
    (hbg : filters.backgroundRemoval = false) (hface : filters.faceEnhancement = false)
    (hh : frame.h = 0) (hs : filters.saturation ≠ 0) :
    apply_filters gbP gbG bf seg det frame filters = .error .emptyInput := by
  simp only [apply_filters, hbg, hface, Bool.false_eq_true, if_false]
  rw [adjust_colors_empty_err frame filters hh hs]
  rfl

/- Concrete fixtures used by scenarios, witnesses and counterexamples. -/

/-- Identity instantiation of the abstract GaussianBlur on pixels. -/
def pxId : PxBlur := fun _ p => p

/-- Identity instantiation of the abstract GaussianBlur on masks. -/
def grayId : GrayBlur := fun _ p => p

/-- Identity instantiation of the abstract bilateral filter. -/
def bfId : Bilateral := fun _ p => p

/-- 64 x 64 solid gray frame, every pixel (128, 128, 128). -/
def gray64 : Frame := ⟨64, 64, fun _ _ => ⟨128, 128, 128⟩⟩

/-- A 2 x 2 frame, every pixel (1, 2, 3). -/
def frame22 : Frame := ⟨2, 2, fun _ _ => ⟨1, 2, 3⟩⟩

/-- An empty (zero-dimension) frame. -/
def frameEmpty : Frame := ⟨0, 0, fun _ _ => ⟨0, 0, 0⟩⟩

/-- Parameters containing only brightness = 20. -/
def brightFilters : Filters :=
  ⟨false, "blur", false, 0, 0, 0, 20, 0, 0, false, "none", 0⟩

/-- Parameters containing only colorFilter = "bw". -/
def bwFilters : Filters :=
  ⟨false, "blur", false, 0, 0, 0, 0, 0, 0, false, "bw", 0⟩

/-- Parameters containing only saturation = 10. -/
def satFilters : Filters :=
  ⟨false, "blur", false, 0, 0, 0, 0, 0, 10, false, "none", 0⟩

/- Claim C4. -/

/-- C4: for every frame and every replacement mode, when no segmentation
mask is available (the segmentation result is None, or the segmentation
call raised), remove_background_lightweight returns the frame unchanged
and raises nothing (the function is total). -/
theorem c4_no_mask_passthrough (gbP : PxBlur) (gbG : GrayBlur)
    (frame : Frame) (mode : String) :
    remove_background_lightweight gbP gbG (.ok none) frame mode = frame
    ∧ ∀ e : String,
        remove_background_lightweight gbP gbG (.error e) frame mode = frame :=
  ⟨rfl, fun _ => rfl⟩

/- Claim C5. -/

theorem adjust_colors_gray64 :
    adjust_colors_fast gray64 brightFilters
      = .ok ⟨64, 64, fun _ _ => ⟨168, 168, 168⟩⟩ := by
  unfold adjust_colors_fast brightFilters gray64
  rw [if_neg (by decide), if_neg (by decide), if_pos (by decide)]
  refine congrArg Except.ok ?_
  refine Frame.ext rfl rfl ?_
  funext i j
  show convertScaleAbsPix ⟨128, 128, 128⟩ 1 (((20 : ℤ) : ℚ) * 2) = ⟨168, 168, 168⟩
  have hb : (((20 : ℤ) : ℚ) * 2) = 40 := by norm_num
  rw [hb]
  have hx : cvScaleAbsN 128 1 40 = 168 := by
    norm_num [cvScaleAbsN, satCast8, cvRound]
    rfl
  simp [convertScaleAbsPix, hx]

/-- C5: on the 64 x 64 solid gray (128,128,128) frame with parameters
containing only brightness = 20, the pipeline output has every channel
of every pixel equal to min(255, 128 + 40) = 168: brightness acts as an
additive offset of brightness * 2 per channel
(convertScaleAbs alpha = 1, beta = 40). -/
theorem c5_brightness_scenario (gbP : PxBlur) (gbG : GrayBlur) (bf : Bilateral) :
    apply_filters gbP gbG bf (.ok none) (.ok []) gray64 brightFilters
      = .ok ⟨64, 64, fun _ _ => ⟨168, 168, 168⟩⟩ := by
  simp only [apply_filters]
  rw [if_neg (by decide), if_neg (by decide), adjust_colors_gray64]
  rfl

/- Claim C6. -/

/-- C6: for every 64 x 64 input frame, the pipeline with parameters
containing only colorFilter = "bw" outputs, at every pixel, the
luminance of the corresponding input pixel (the fixed-point RGB2GRAY
value) replicated into all three channels; in particular the output is
achromatic (R = G = B at every pixel). -/
theorem c6_bw_scenario (gbP : PxBlur) (gbG : GrayBlur) (bf : Bilateral)
    (px : ℕ → ℕ → Pix) :
    apply_filters gbP gbG bf (.ok none) (.ok []) ⟨64, 64, px⟩ bwFilters
      = .ok ⟨64, 64, fun i j =>
          ⟨rgb2grayPix (px i j), rgb2grayPix (px i j), rgb2grayPix (px i j)⟩⟩ :=
  rfl

/- Claim C8. -/

/-- C8: for every frame and every nonnegative integer blur amount, the
uniform blur of apply_effects_fast runs exactly when blur > 0 and
backgroundRemoval is not active (the blur is then applied, with the
abstract Gaussian kernel, on top of the color/effects part), and the
kernel size it uses is max(3, blur*2 + 1), which is odd (the
force-odd correction of the source never fires). -/
theorem blurKernelSize_eq (b : ℕ) :
    blurKernelSize b = max 3 (b * 2 + 1) := by
  simp only [blurKernelSize]
  rw [if_neg (by omega)]

theorem apply_effects_eq (gbP : PxBlur) (frame : Frame) (filters : Filters) :
    apply_effects_fast gbP frame filters =
      if 0 < filters.blur ∧ filters.backgroundRemoval = false then
        (effectsColorPart frame filters).map
          (fun g => ⟨g.h, g.w, gbP (blurKernelSize filters.blur) g.px⟩)
      else effectsColorPart frame filters := by
  unfold apply_effects_fast
  cases hE : effectsColorPart frame filters with
  | error e =>
      split <;> rfl
  | ok g =>
      show (if 0 < filters.blur ∧ filters.backgroundRemoval = false
          then Except.ok (⟨g.h, g.w, gbP (blurKernelSize filters.blur) g.px⟩ : Frame)
          else Except.ok g) = _
      split <;> simp [Except.map]

theorem c8_blur_gating (gbP : PxBlur) (frame : Frame) (filters : Filters) :
    (apply_effects_fast gbP frame filters =
      if 0 < filters.blur ∧ filters.backgroundRemoval = false then
        (effectsColorPart frame filters).map
          (fun g => ⟨g.h, g.w, gbP (max 3 (filters.blur * 2 + 1)) g.px⟩)
      else effectsColorPart frame filters)
    ∧ blurKernelSize filters.blur = max 3 (filters.blur * 2 + 1)
    ∧ blurKernelSize filters.blur % 2 = 1 := by
  refine ⟨?_, blurKernelSize_eq filters.blur,
    by rw [blurKernelSize_eq]; omega⟩
  rw [apply_effects_eq, blurKernelSize_eq]

/- Claim C1. -/

/-- C1, counterexample to the claim as stated: on the empty frame with
parameters containing only saturation = 10, the ColorGradeStage body
(adjust_colors_fast) raises internally (cvtColor on an empty matrix),
and apply_filters does not substitute the stage input: the error
escalates to the caller instead of being converted to pass-through. -/
theorem c1_counterexample :
    adjust_colors_fast frameEmpty satFilters = .error .emptyInput
    ∧ apply_filters pxId grayId bfId (.ok none) (.ok []) frameEmpty satFilters
        = .error .emptyInput :=
  ⟨rfl, rfl⟩

/-- C1 as amended: failure isolation holds for BackgroundStage and
FaceStage only — an exception inside either (modelled by an .error
inference result) is caught and the stage input frame is returned
unchanged.  ColorGradeStage and EffectsStage have no stage-boundary
catch: an exception inside adjust_colors_fast (for example cvtColor on
an empty frame in the saturation branch) escalates out of
apply_filters. -/
theorem c1_amended_isolation :
    (∀ (gbP : PxBlur) (gbG : GrayBlur) (frame : Frame) (mode : String)
        (e : String),
        remove_background_lightweight gbP gbG (.error e) frame mode = frame)
    ∧ (∀ (bf : Bilateral) (frame : Frame) (filters : Filters) (e : String),
        enhance_face_opencv bf (.error e) frame filters = frame)
    ∧ (∀ (gbP : PxBlur) (gbG : GrayBlur) (bf : Bilateral) (seg : SegResult)
        (det : DetResult) (frame : Frame) (filters : Filters),
        filters.backgroundRemoval = false → filters.faceEnhancement = false →
        frame.h = 0 → filters.saturation ≠ 0 →
        apply_filters gbP gbG bf seg det frame filters = .error .emptyInput) :=
  ⟨fun _ _ _ _ _ => rfl, fun _ _ _ _ => rfl,
   fun gbP gbG bf seg det frame filters h1 h2 h3 h4 =>
     apply_filters_empty_err gbP gbG bf seg det frame filters h1 h2 h3 h4⟩

/-- Witness for c1_amended_isolation at concrete inputs. -/
theorem c1_amended_isolation_witness :
    remove_background_lightweight pxId grayId (.error "mp failure") frame22 "blur"
        = frame22
    ∧ enhance_face_opencv bfId (.error "mp failure") frame22 defaultFilters
        = frame22
    ∧ apply_filters pxId grayId bfId (.ok none) (.ok []) frameEmpty satFilters
        = .error .emptyInput :=
  ⟨c1_amended_isolation.1 pxId grayId frame22 "blur" "mp failure",
   c1_amended_isolation.2.1 bfId frame22 defaultFilters "mp failure",
   c1_amended_isolation.2.2 pxId grayId bfId (.ok none) (.ok [])
     frameEmpty satFilters rfl rfl rfl (by decide)⟩

/- Claim C2. -/

theorem convertScaleAbsPix_one_zero (p : Pix) (hp : p.Valid) :
    convertScaleAbsPix p 1 0 = p := by
  obtain ⟨h0, h1, h2⟩ := hp
  simp only [convertScaleAbsPix, cvScaleAbsN_one_zero _ h0,
    cvScaleAbsN_one_zero _ h1, cvScaleAbsN_one_zero _ h2]

theorem smooth_skin_zero (bf : Bilateral) (face : Frame) (hv : face.Valid) :
    smooth_skin_fast bf face 0 = face := by
  refine Frame.ext rfl rfl ?_
  funext i j
  obtain ⟨h0, h1, h2⟩ := hv i j
  simp only [smooth_skin_fast, addWeighted, zero_mul, sub_zero, one_mul,
    add_zero, cvRound_natCast, satCast8_natCast _ h0, satCast8_natCast _ h1,
    satCast8_natCast _ h2]

theorem brighten_eyes_zero (face : Frame) (hv : face.Valid) :
    brighten_eyes_fast face 0 = face := by
  have ha : (1 + 0 * (1/5) : ℚ) = 1 := by norm_num
  have hb : ((0 : ℚ) * 15) = 0 := by norm_num
  refine Frame.ext rfl rfl ?_
  funext i j
  simp only [brighten_eyes_fast, ha, hb]
  split
  · exact convertScaleAbsPix_one_zero _ (hv i j)
  · rfl

/-- C2 as amended: smoothSkin and brightenEyes at intensity exactly 0
return the region pixel for pixel unchanged (for any uint8-valid
region and any bilateral kernel). -/
theorem c2_amended_zero_intensity (bf : Bilateral) (face : Frame)
    (hv : face.Valid) :
    smooth_skin_fast bf face 0 = face ∧ brighten_eyes_fast face 0 = face :=
  ⟨smooth_skin_zero bf face hv, brighten_eyes_zero face hv⟩

/-- Witness for c2_amended_zero_intensity on a concrete 3 x 3 region. -/
theorem c2_amended_zero_intensity_witness :
    smooth_skin_fast bfId ⟨3, 3, fun _ _ => ⟨7, 8, 9⟩⟩ 0
        = ⟨3, 3, fun _ _ => ⟨7, 8, 9⟩⟩
    ∧ brighten_eyes_fast ⟨3, 3, fun _ _ => ⟨7, 8, 9⟩⟩ 0
        = ⟨3, 3, fun _ _ => ⟨7, 8, 9⟩⟩ :=
  c2_amended_zero_intensity bfId ⟨3, 3, fun _ _ => ⟨7, 8, 9⟩⟩
    (fun _ _ => ⟨by norm_num, by norm_num, by norm_num⟩)

/-- The pixel value (255, 1, 0) in uint8 RGB2HSV. -/
theorem rgb2hsvPix_2551 : rgb2hsvPix ⟨255, 1, 0⟩ = ⟨0, 255, 255⟩ := by
  have ha1 : sdivTable 255 = 4096 := by norm_num [sdivTable, cvRound]
  have ha2 : hdivTable 255 = 482 := by norm_num [hdivTable, cvRound]
  have ht : Int.toNat (255 : ℤ) = 255 := rfl
  simp only [rgb2hsvPix]
  norm_num [ht, ha1, ha2]
  decide

/-- The HSV value (0, 255, 255) back in RGB: pure red. -/
theorem hsv2rgbPix_red : hsv2rgbPix ⟨0, 255, 255⟩ = ⟨255, 0, 0⟩ := by
  have ht : Int.toNat (255 : ℤ) = 255 := rfl
  simp only [hsv2rgbPix]
  norm_num [ht, satCast8, cvRound]

/-- The 3 x 1 region whose mouth row holds the pixel (255, 1, 0). -/
def teethFace : Frame :=
  ⟨3, 1, fun i _ => if i = 2 then ⟨255, 1, 0⟩ else ⟨0, 0, 0⟩⟩

/-- C2, counterexample to the claim as stated: whitenTeeth at intensity
exactly 0 is not the identity.  On a region whose mouth row holds the
pixel (255, 1, 0), the uint8 RGB-HSV-RGB round trip of
whiten_teeth_fast (whose channel adjustments are no-ops at intensity 0)
returns (255, 0, 0): the hue resolution of 8-bit HSV cannot represent
the tiny green component.  (The pipeline never calls whitenTeeth at
intensity 0 — enhance_face_opencv guards each call with intensity > 0 —
but the operation itself is not an identity at 0.) -/
theorem c2_counterexample :
    (whiten_teeth_fast teethFace 0).px 2 0 = ⟨255, 0, 0⟩
    ∧ teethFace.px 2 0 = ⟨255, 1, 0⟩
    ∧ whiten_teeth_fast teethFace 0 ≠ teethFace := by
  have hpx : (whiten_teeth_fast teethFace 0).px 2 0 = ⟨255, 0, 0⟩ := by
    have hz : ratTrunc (0 * 20) = 0 := by norm_num [ratTrunc]
    have hs : ((255 : ℕ) : ℚ) * (1 - 0 * (1/10)) = ((255 : ℕ) : ℚ) := by
      norm_num
    simp only [whiten_teeth_fast, teethFace]
    rw [if_pos (show 2 * 3 / 3 ≤ 2 by norm_num)]
    simp only [if_true]
    rw [rgb2hsvPix_2551]
    rw [hz, hs, add_zero, cvRound_natCast]
    rw [satCast8_natCast 255 (by norm_num)]
    exact hsv2rgbPix_red
  refine ⟨hpx, rfl, fun hEq => ?_⟩
  have := congrArg (fun f => f.px 2 0) hEq
  simp only [hpx] at this
  simp [teethFace] at this

/- Claim C3. -/

/-- The compositing formula as the specification words it: per channel
foreground*mask + background*(1 - mask), rounded to the NEAREST integer
and clamped to [0, 255].  Stated only for comparison with composite,
which is the definition taken from the source. -/
def compositeSpec (fg bg : Frame) (mask : ℕ → ℕ → ℚ) : Frame :=
  ⟨fg.h, fg.w, fun i j =>
    let m := mask i j
    ⟨satCast8 (round ((fg.px i j).c0 * m + (bg.px i j).c0 * (1 - m))),
     satCast8 (round ((fg.px i j).c1 * m + (bg.px i j).c1 * (1 - m))),
     satCast8 (round ((fg.px i j).c2 * m + (bg.px i j).c2 * (1 - m)))⟩⟩

/-- 1 x 1 foreground frame with pixel (1, 1, 1). -/
def fgOne : Frame := ⟨1, 1, fun _ _ => ⟨1, 1, 1⟩⟩

/-- 1 x 1 background frame with pixel (0, 0, 0). -/
def bgZero : Frame := ⟨1, 1, fun _ _ => ⟨0, 0, 0⟩⟩

/-- Constant mask 128/255 (a value the smoothed uint8 mask can take). -/
def maskHalf : ℕ → ℕ → ℚ := fun _ _ => 128/255

/-- C3, counterexample to the claim as stated: the code truncates
(astype(np.uint8)) instead of rounding to nearest.  With foreground 1,
background 0 and mask 128/255, the blend is 128/255 which is about
0.502: the source produces 0, while the round-to-nearest contract of
the claim produces 1. -/
theorem c3_counterexample :
    (composite fgOne bgZero maskHalf).px 0 0 = ⟨0, 0, 0⟩
    ∧ (compositeSpec fgOne bgZero maskHalf).px 0 0 = ⟨1, 1, 1⟩
    ∧ (0 : ℚ) ≤ 128/255 ∧ (128/255 : ℚ) ≤ 1 := by
  refine ⟨?_, ?_, by norm_num, by norm_num⟩
  · norm_num [composite, fgOne, bgZero, maskHalf, trunc8]
  · norm_num [compositeSpec, fgOne, bgZero, maskHalf, satCast8, round_eq]

theorem trunc8_blend_bounds (a b m : ℚ) (ha0 : 0 ≤ a) (ha : a ≤ 255)
    (hb0 : 0 ≤ b) (hb : b ≤ 255) (hm0 : 0 ≤ m) (hm1 : m ≤ 1) :
    ((trunc8 (a * m + b * (1 - m)) : ℕ) : ℚ) ≤ a * m + b * (1 - m)
    ∧ a * m + b * (1 - m) < ((trunc8 (a * m + b * (1 - m)) : ℕ) : ℚ) + 1
    ∧ trunc8 (a * m + b * (1 - m)) ≤ 255 := by
  have he0 : 0 ≤ a * m + b * (1 - m) := by
    have h1 := mul_nonneg ha0 hm0
    have h2 := mul_nonneg hb0 (by linarith : (0 : ℚ) ≤ 1 - m)
    linarith
  have he255 : a * m + b * (1 - m) ≤ 255 := by
    have h1 : a * m ≤ 255 * m := mul_le_mul_of_nonneg_right ha hm0
    have h2 : b * (1 - m) ≤ 255 * (1 - m) :=
      mul_le_mul_of_nonneg_right hb (by linarith)
    nlinarith
  have hfl0 : 0 ≤ ⌊a * m + b * (1 - m)⌋ := Int.floor_nonneg.mpr he0
  have hcast : ((trunc8 (a * m + b * (1 - m)) : ℕ) : ℚ)
      = ((⌊a * m + b * (1 - m)⌋ : ℤ) : ℚ) := by
    simp only [trunc8]
    exact_mod_cast Int.toNat_of_nonneg hfl0
  refine ⟨?_, ?_, ?_⟩
  · rw [hcast]
    exact Int.floor_le _
  · rw [hcast]
    exact Int.lt_floor_add_one _
  · have h255 : ⌊a * m + b * (1 - m)⌋ ≤ 255 := by
      have := Int.floor_mono he255
      simpa using this
    simp only [trunc8]
    omega

/-- C3 as amended: the compositing step computes, per channel, the
FLOOR (truncation toward zero, from astype(np.uint8)) of
foreground*mask + background*(1 - mask); for uint8-valid frames and a
mask in [0, 1] that blend lies in [0, 255], so no clamping is involved
and the output channel is at most 255.  The floor is characterised by
the two inequalities below. -/
theorem c3_amended_composite (fg bg : Frame) (mask : ℕ → ℕ → ℚ)
    (i j : ℕ) (k : Fin 3)
    (hm0 : 0 ≤ mask i j) (hm1 : mask i j ≤ 1)
    (hfg : (fg.px i j).Valid) (hbg : (bg.px i j).Valid) :
    ((((composite fg bg mask).px i j).chan k : ℕ) : ℚ)
        ≤ ((fg.px i j).chan k : ℚ) * mask i j
          + ((bg.px i j).chan k : ℚ) * (1 - mask i j)
    ∧ ((fg.px i j).chan k : ℚ) * mask i j
          + ((bg.px i j).chan k : ℚ) * (1 - mask i j)
        < ((((composite fg bg mask).px i j).chan k : ℕ) : ℚ) + 1
    ∧ ((composite fg bg mask).px i j).chan k ≤ 255 := by
  obtain ⟨hf0, hf1, hf2⟩ := hfg
  obtain ⟨hb0, hb1, hb2⟩ := hbg
  fin_cases k
  · exact trunc8_blend_bounds _ _ _ (Nat.cast_nonneg _) (by exact_mod_cast hf0)
      (Nat.cast_nonneg _) (by exact_mod_cast hb0) hm0 hm1
  · exact trunc8_blend_bounds _ _ _ (Nat.cast_nonneg _) (by exact_mod_cast hf1)
      (Nat.cast_nonneg _) (by exact_mod_cast hb1) hm0 hm1
  · exact trunc8_blend_bounds _ _ _ (Nat.cast_nonneg _) (by exact_mod_cast hf2)
      (Nat.cast_nonneg _) (by exact_mod_cast hb2) hm0 hm1

/-- Witness for c3_amended_composite at concrete inputs. -/
theorem c3_amended_composite_witness :
    (0 : ℚ) ≤ maskHalf 0 0
    ∧ ((((composite fgOne bgZero maskHalf).px 0 0).chan 0 : ℕ) : ℚ)
        ≤ ((fgOne.px 0 0).chan 0 : ℚ) * maskHalf 0 0
          + ((bgZero.px 0 0).chan 0 : ℚ) * (1 - maskHalf 0 0) :=
  ⟨by norm_num [maskHalf],
   (c3_amended_composite fgOne bgZero maskHalf 0 0 0
      (by norm_num [maskHalf]) (by norm_num [maskHalf])
      (by norm_num [fgOne, Pix.Valid]) (by norm_num [bgZero, Pix.Valid])).1⟩

/- Claim C7. -/

/-- C7: FaceStage region bounds safety.  For every frame, every filter
mapping and every face box (in particular boxes partially or fully
outside the frame), the stage clamps the box (x = max 0 x, width =
min(w - x, bw), and so for y): when the clamped width or height is not
positive the frame is returned untouched; when they are positive the
clamped rectangle lies inside the frame bounds; and pixels outside the
frame bounds are never written.  The stage is a total function: it
cannot raise. -/
theorem c7_face_region_bounds (bf : Bilateral) (frame : Frame)
    (filters : Filters) (box : FaceBox) :
    ((clampFaceBox frame.h frame.w box).cw ≤ 0
        ∨ (clampFaceBox frame.h frame.w box).ch ≤ 0 →
      enhance_face_opencv bf (.ok [box]) frame filters = frame)
    ∧ (0 < (clampFaceBox frame.h frame.w box).cw →
       0 < (clampFaceBox frame.h frame.w box).ch →
        0 ≤ (clampFaceBox frame.h frame.w box).x
        ∧ 0 ≤ (clampFaceBox frame.h frame.w box).y
        ∧ (clampFaceBox frame.h frame.w box).x
            + (clampFaceBox frame.h frame.w box).cw ≤ frame.w
        ∧ (clampFaceBox frame.h frame.w box).y
            + (clampFaceBox frame.h frame.w box).ch ≤ frame.h)
    ∧ (∀ i j : ℕ, frame.h ≤ i ∨ frame.w ≤ j →
        (enhance_face_opencv bf (.ok [box]) frame filters).px i j
          = frame.px i j) := by
  have hface : enhance_face_opencv bf (.ok [box]) frame filters
      = processDetection bf frame filters box := rfl
  refine ⟨?_, ?_, ?_⟩
  · intro hle
    rw [hface]
    simp only [processDetection]
    rw [if_neg (by omega)]
  · intro hw hh
    simp only [clampFaceBox] at hw hh ⊢
    omega
  · intro i j hij
    rw [hface]
    simp only [processDetection]
    split
    · next hpos =>
        simp only [writeRegion]
        rw [if_neg ?_]
        simp only [clampFaceBox] at hpos ⊢
        omega
    · rfl

/-- Witness for c7_face_region_bounds at concrete inputs: a box fully
right of and below a 2 x 2 frame is a no-op, and a 5 x 5 box anchored
at the origin never writes the out-of-bounds pixel (7, 0). -/
theorem c7_face_region_bounds_witness :
    enhance_face_opencv bfId (.ok [⟨5, 5, 3, 3⟩]) frame22 defaultFilters
        = frame22
    ∧ (enhance_face_opencv bfId (.ok [⟨0, 0, 5, 5⟩]) frame22 defaultFilters).px 7 0
        = frame22.px 7 0 :=
  ⟨(c7_face_region_bounds bfId frame22 defaultFilters ⟨5, 5, 3, 3⟩).1
      (by norm_num [clampFaceBox, frame22]),
   (c7_face_region_bounds bfId frame22 defaultFilters ⟨0, 0, 5, 5⟩).2.2 7 0
      (by norm_num [frame22])⟩

/- Claim C9: dimension preservation. -/

theorem remove_background_dims (gbP : PxBlur) (gbG : GrayBlur)
    (seg : SegResult) (frame : Frame) (repl : String) :
    (remove_background_lightweight gbP gbG seg frame repl).h = frame.h
    ∧ (remove_background_lightweight gbP gbG seg frame repl).w = frame.w := by
  cases seg with
  | error e => exact ⟨rfl, rfl⟩
  | ok o =>
    cases o with
    | none => exact ⟨rfl, rfl⟩
    | some m =>
        simp only [remove_background_lightweight]
        split_ifs <;> exact ⟨rfl, rfl⟩

theorem processDetection_dims (bf : Bilateral) (frame : Frame)
    (filters : Filters) (box : FaceBox) :
    (processDetection bf frame filters box).h = frame.h
    ∧ (processDetection bf frame filters box).w = frame.w := by
  simp only [processDetection]
  split <;> exact ⟨rfl, rfl⟩

theorem foldl_processDetection_dims (bf : Bilateral) (filters : Filters) :
    ∀ (l : List FaceBox) (fr : Frame),
      ((l.foldl (fun fr box => processDetection bf fr filters box) fr).h = fr.h
      ∧ (l.foldl (fun fr box => processDetection bf fr filters box) fr).w = fr.w)
  | [], fr => ⟨rfl, rfl⟩
  | box :: rest, fr => by
      have h1 := processDetection_dims bf fr filters box
      have h2 := foldl_processDetection_dims bf filters rest
        (processDetection bf fr filters box)
      exact ⟨h2.1.trans h1.1, h2.2.trans h1.2⟩

theorem enhance_face_dims (bf : Bilateral) (det : DetResult)
    (frame : Frame) (filters : Filters) :
    (enhance_face_opencv bf det frame filters).h = frame.h
    ∧ (enhance_face_opencv bf det frame filters).w = frame.w := by
  cases det with
  | error e => exact ⟨rfl, rfl⟩
  | ok dets => exact foldl_processDetection_dims bf filters dets frame

theorem cvtColorRGB2HSV_ok_dims {f g : Frame}
    (h : cvtColorRGB2HSV f = .ok g) : g.h = f.h ∧ g.w = f.w := by
  simp only [cvtColorRGB2HSV] at h
  split at h
  · exact Except.noConfusion h
  · injection h with h
    subst h
    exact ⟨rfl, rfl⟩

theorem cvtColorHSV2RGB_ok_dims {f g : Frame}
    (h : cvtColorHSV2RGB f = .ok g) : g.h = f.h ∧ g.w = f.w := by
  simp only [cvtColorHSV2RGB] at h
  split at h
  · exact Except.noConfusion h
  · injection h with h
    subst h
    exact ⟨rfl, rfl⟩

theorem cvtColorRGB2GRAY_ok_dims {f : Frame} {g : GrayFrame}
    (h : cvtColorRGB2GRAY f = .ok g) : g.h = f.h ∧ g.w = f.w := by
  simp only [cvtColorRGB2GRAY] at h
  split at h
  · exact Except.noConfusion h
  · injection h with h
    subst h
    exact ⟨rfl, rfl⟩

theorem cvtColorGRAY2RGB_ok_dims {f : GrayFrame} {g : Frame}
    (h : cvtColorGRAY2RGB f = .ok g) : g.h = f.h ∧ g.w = f.w := by
  simp only [cvtColorGRAY2RGB] at h
  split at h
  · exact Except.noConfusion h
  · injection h with h
    subst h
    exact ⟨rfl, rfl⟩

theorem bind_hsv_dims {p2 g : Frame} (φ : Pix → Pix)
    (h : (do
        let hsv ← cvtColorRGB2HSV p2
        cvtColorHSV2RGB ⟨hsv.h, hsv.w, fun i j => φ (hsv.px i j)⟩) = .ok g) :
    g.h = p2.h ∧ g.w = p2.w := by
  cases hh : cvtColorRGB2HSV p2 with
  | error e =>
      rw [hh] at h
      exact Except.noConfusion h
  | ok hsv =>
      rw [hh] at h
      have h2 : cvtColorHSV2RGB ⟨hsv.h, hsv.w, fun i j => φ (hsv.px i j)⟩
          = .ok g := h
      have h1 := cvtColorRGB2HSV_ok_dims hh
      have h3 := cvtColorHSV2RGB_ok_dims h2
      exact ⟨h3.1.trans h1.1, h3.2.trans h1.2⟩

theorem ite_convertScaleAbs_w (c : Prop) [Decidable c] (f : Frame) (a b : ℚ) :
    (if c then convertScaleAbs f a b else f).w = f.w := by
  split <;> rfl

theorem adjust_colors_ok_dims {frame : Frame} {filters : Filters} {g : Frame}
    (h : adjust_colors_fast frame filters = .ok g) :
    g.h = frame.h ∧ g.w = frame.w := by
  simp only [adjust_colors_fast] at h
  split at h
  · have hd := bind_hsv_dims (fun q =>
      (⟨q.c0, satCast8 (cvRound ((q.c1 : ℚ) * (1 + (filters.saturation : ℚ) / 100))),
        q.c2⟩ : Pix)) h
    constructor
    · rw [hd.1, ite_convertScaleAbs_h, ite_convertScaleAbs_h]
    · rw [hd.2, ite_convertScaleAbs_w, ite_convertScaleAbs_w]
  · injection h with h
    subst h
    constructor
    · rw [ite_convertScaleAbs_h, ite_convertScaleAbs_h]
    · rw [ite_convertScaleAbs_w, ite_convertScaleAbs_w]

theorem ite_sepia_h (c : Prop) [Decidable c] (f : Frame) :
    (if c then (⟨f.h, f.w, fun i j => sepiaTransformPix (f.px i j)⟩ : Frame)
     else f).h = f.h := by
  split <;> rfl

theorem ite_sepia_w (c : Prop) [Decidable c] (f : Frame) :
    (if c then (⟨f.h, f.w, fun i j => sepiaTransformPix (f.px i j)⟩ : Frame)
     else f).w = f.w := by
  split <;> rfl

theorem effectsColorPart_ok_dims {frame : Frame} {filters : Filters}
    {g : Frame} (h : effectsColorPart frame filters = .ok g) :
    g.h = frame.h ∧ g.w = frame.w := by
  simp only [effectsColorPart] at h
  split at h
  · injection h with h
    subst h
    exact ⟨ite_sepia_h _ frame, ite_sepia_w _ frame⟩
  split at h
  · injection h with h
    subst h
    exact ⟨ite_sepia_h _ frame, ite_sepia_w _ frame⟩
  split at h
  · cases hg : cvtColorRGB2GRAY
        (if filters.vintage
         then (⟨frame.h, frame.w, fun i j => sepiaTransformPix (frame.px i j)⟩ : Frame)
         else frame) with
    | error e =>
        rw [hg] at h
        exact Except.noConfusion h
    | ok gr =>
        rw [hg] at h
        have h2 : cvtColorGRAY2RGB gr = .ok g := h
        have h1 := cvtColorRGB2GRAY_ok_dims hg
        have h3 := cvtColorGRAY2RGB_ok_dims h2
        constructor
        · rw [h3.1, h1.1, ite_sepia_h]
        · rw [h3.2, h1.2, ite_sepia_w]
  split at h
  · cases hg : cvtColorRGB2GRAY
        (if filters.vintage
         then (⟨frame.h, frame.w, fun i j => sepiaTransformPix (frame.px i j)⟩ : Frame)
         else frame) with
    | error e =>
        rw [hg] at h
        exact Except.noConfusion h
    | ok gr =>
        rw [hg] at h
        have h4 : (do
            let rgb ← cvtColorGRAY2RGB gr
            Except.ok (⟨rgb.h, rgb.w, fun i j =>
              let q := rgb.px i j
              (⟨trunc8 (min 255 ((q.c0 : ℚ) * (4/5))),
                trunc8 (min 255 ((q.c1 : ℚ) * (9/10))), q.c2⟩ : Pix)⟩ : Frame))
            = Except.ok g := h
        have h1 := cvtColorRGB2GRAY_ok_dims hg
        cases hrgb : cvtColorGRAY2RGB gr with
        | error e =>
            rw [hrgb] at h4
            exact Except.noConfusion h4
        | ok rgb =>
            rw [hrgb] at h4
            have h5 : Except.ok (⟨rgb.h, rgb.w, fun i j =>
                let q := rgb.px i j
                (⟨trunc8 (min 255 ((q.c0 : ℚ) * (4/5))),
                  trunc8 (min 255 ((q.c1 : ℚ) * (9/10))), q.c2⟩ : Pix)⟩ : Frame)
                = Except.ok g := h4
            injection h5 with h5
            subst h5
            have h3 := cvtColorGRAY2RGB_ok_dims hrgb
            constructor
            · show rgb.h = frame.h
              rw [h3.1, h1.1, ite_sepia_h]
            · show rgb.w = frame.w
              rw [h3.2, h1.2, ite_sepia_w]
  split at h
  · have hd := bind_hsv_dims (fun q =>
      (⟨q.c0, satCast8 (cvRound ((q.c1 : ℚ) * (13/10))), q.c2⟩ : Pix)) h
    constructor
    · rw [hd.1, ite_sepia_h]
    · rw [hd.2, ite_sepia_w]
  · injection h with h
    subst h
    exact ⟨ite_sepia_h _ frame, ite_sepia_w _ frame⟩

theorem apply_effects_ok_dims {gbP : PxBlur} {frame : Frame}
    {filters : Filters} {g : Frame}
    (h : apply_effects_fast gbP frame filters = .ok g) :
    g.h = frame.h ∧ g.w = frame.w := by
  rw [apply_effects_eq] at h
  split at h
  · cases hE : effectsColorPart frame filters with
    | error e =>
        rw [hE] at h
        exact Except.noConfusion h
    | ok p2 =>
        rw [hE] at h
        injection h with h
        subst h
        have hd := effectsColorPart_ok_dims hE
        exact hd
  · exact effectsColorPart_ok_dims h

theorem bind_adjust_effects_dims {gbP : PxBlur} {p2 out : Frame}
    {filters : Filters}
    (h : (do
        let q ← adjust_colors_fast p2 filters
        apply_effects_fast gbP q filters) = .ok out) :
    out.h = p2.h ∧ out.w = p2.w := by
  cases hA : adjust_colors_fast p2 filters with
  | error e =>
      rw [hA] at h
      exact Except.noConfusion h
  | ok q =>
      rw [hA] at h
      have h2 : apply_effects_fast gbP q filters = .ok out := h
      have hd1 := adjust_colors_ok_dims hA
      have hd2 := apply_effects_ok_dims h2
      exact ⟨hd2.1.trans hd1.1, hd2.2.trans hd1.2⟩

/-- C9: for every input frame and every filter mapping, whenever the
pipeline returns a frame (it returns one for every nonempty frame), the
output has exactly the input frame dimensions: no stage changes the
height or width. -/
theorem c9_dims_preserved (gbP : PxBlur) (gbG : GrayBlur) (bf : Bilateral)
    (seg : SegResult) (det : DetResult) (frame : Frame) (filters : Filters)
    (out : Frame)
    (hok : apply_filters gbP gbG bf seg det frame filters = .ok out) :
    out.h = frame.h ∧ out.w = frame.w := by
  simp only [apply_filters] at hok
  have hd := bind_adjust_effects_dims hok
  constructor
  · rw [hd.1]
    split
    · rw [(enhance_face_dims bf det _ filters).1]
      split
      · exact (remove_background_dims gbP gbG seg frame _).1
      · rfl
    · split
      · exact (remove_background_dims gbP gbG seg frame _).1
      · rfl
  · rw [hd.2]
    split
    · rw [(enhance_face_dims bf det _ filters).2]
      split
      · exact (remove_background_dims gbP gbG seg frame _).2
      · rfl
    · split
      · exact (remove_background_dims gbP gbG seg frame _).2
      · rfl

/-- Witness for c9_dims_preserved: default parameters on a concrete
2 x 2 frame (the pipeline returns the frame itself). -/
theorem c9_dims_preserved_witness :
    apply_filters pxId grayId bfId (.ok none) (.ok []) frame22 defaultFilters
        = .ok frame22
    ∧ frame22.h = frame22.h ∧ frame22.w = frame22.w :=
  ⟨rfl,
   c9_dims_preserved pxId grayId bfId (.ok none) (.ok []) frame22
     defaultFilters frame22 rfl⟩

/- Claim C10: the heap-level lemmas. -/

theorem alloc_buf_frozen (σ : Heap) (f : Frame) (i : ℕ) (hi : i ≠ σ.hnext) :
    (σ.alloc f).1.buf i = σ.buf i := by
  simp only [Heap.alloc]
  rw [if_neg hi]

theorem remove_background_heap_cases (gbP : PxBlur) (gbG : GrayBlur)
    (σ : Heap) (r : ℕ) (seg : SegResult) (repl : String) :
    remove_background_heap gbP gbG σ r seg repl = (σ, r)
    ∨ ((remove_background_heap gbP gbG σ r seg repl).2 = σ.hnext
       ∧ (remove_background_heap gbP gbG σ r seg repl).1.hnext = σ.hnext + 1
       ∧ ∀ i, i ≠ σ.hnext →
          (remove_background_heap gbP gbG σ r seg repl).1.buf i = σ.buf i) := by
  cases seg with
  | error e => exact Or.inl rfl
  | ok o =>
    cases o with
    | none => exact Or.inl rfl
    | some m =>
      refine Or.inr ⟨rfl, rfl, fun i hi => ?_⟩
      exact alloc_buf_frozen σ _ i hi

theorem enhance_face_heap_facts (bf : Bilateral) (σ : Heap) (r : ℕ)
    (det : DetResult) (filters : Filters) :
    (enhance_face_heap bf σ r det filters).1.hnext = σ.hnext
    ∧ (enhance_face_heap bf σ r det filters).2 = r
    ∧ ∀ i, i ≠ r → (enhance_face_heap bf σ r det filters).1.buf i = σ.buf i := by
  cases det with
  | error e => exact ⟨rfl, rfl, fun i _ => rfl⟩
  | ok dets =>
      refine ⟨rfl, rfl, fun i hi => ?_⟩
      simp only [enhance_face_heap, Heap.write]
      rw [if_neg hi]

theorem pipeHeap1_spec (gbP : PxBlur) (gbG : GrayBlur) (σr : Heap × ℕ)
    (seg : SegResult) (filters : Filters) (hr : σr.2 < σr.1.hnext) :
    (∀ i, i < σr.1.hnext →
      (pipeHeap1 gbP gbG σr seg filters).1.buf i = σr.1.buf i)
    ∧ σr.1.hnext ≤ (pipeHeap1 gbP gbG σr seg filters).1.hnext
    ∧ ((pipeHeap1 gbP gbG σr seg filters).2 = σr.2
        ∨ σr.1.hnext ≤ (pipeHeap1 gbP gbG σr seg filters).2)
    ∧ (pipeHeap1 gbP gbG σr seg filters).2
        < (pipeHeap1 gbP gbG σr seg filters).1.hnext := by
  unfold pipeHeap1
  split
  · rcases remove_background_heap_cases gbP gbG σr.1 σr.2 seg
      filters.backgroundReplacement with hc | ⟨h1, h2, h3⟩
    · rw [hc]
      exact ⟨fun i _ => rfl, le_refl _, Or.inl rfl, hr⟩
    · refine ⟨fun i hi => h3 i (by omega), by omega, Or.inr (by omega), by omega⟩
  · exact ⟨fun i _ => rfl, le_refl _, Or.inl rfl, hr⟩

theorem pipeHeap2_spec (bf : Bilateral) (σr : Heap × ℕ) (det : DetResult)
    (filters : Filters) :
    (∀ i, i < σr.1.hnext → i ≠ σr.2 →
      (pipeHeap2 bf σr det filters).1.buf i = σr.1.buf i)
    ∧ (pipeHeap2 bf σr det filters).1.hnext = σr.1.hnext
    ∧ (pipeHeap2 bf σr det filters).2 = σr.2 := by
  unfold pipeHeap2
  split
  · obtain ⟨h1, h2, h3⟩ := enhance_face_heap_facts bf σr.1 σr.2 det filters
    exact ⟨fun i _ hi => h3 i hi, h1, h2⟩
  · exact ⟨fun i _ _ => rfl, rfl, rfl⟩

theorem adjust_colors_heap_spec (σ : Heap) (r : ℕ) (filters : Filters) :
    (∀ i, i < σ.hnext → (adjust_colors_heap σ r filters).1.buf i = σ.buf i)
    ∧ σ.hnext ≤ (adjust_colors_heap σ r filters).1.hnext
    ∧ ∀ r2, (adjust_colors_heap σ r filters).2 = .ok r2 →
        σ.hnext ≤ r2 := by
  unfold adjust_colors_heap
  cases adjust_colors_fast (σ.buf r) filters with
  | error e => exact ⟨fun i _ => rfl, le_refl _, fun r2 h => Except.noConfusion h⟩
  | ok f =>
      refine ⟨fun i hi => alloc_buf_frozen σ f i (by omega), by
        show σ.hnext ≤ σ.hnext + 1
        omega, fun r2 h => ?_⟩
      injection h with h
      subst h
      show σ.hnext ≤ σ.hnext
      exact le_refl _

theorem apply_effects_heap_spec (gbP : PxBlur) (σ : Heap) (r : ℕ)
    (filters : Filters) :
    (∀ i, i < σ.hnext → (apply_effects_heap gbP σ r filters).1.buf i = σ.buf i)
    ∧ ∀ r2, (apply_effects_heap gbP σ r filters).2 = .ok r2 →
        σ.hnext ≤ r2 := by
  unfold apply_effects_heap
  cases apply_effects_fast gbP (σ.buf r) filters with
  | error e => exact ⟨fun i _ => rfl, fun r2 h => Except.noConfusion h⟩
  | ok f =>
      refine ⟨fun i hi => alloc_buf_frozen σ f i (by omega), fun r2 h => ?_⟩
      injection h with h
      subst h
      show σ.hnext ≤ σ.hnext
      exact le_refl _

/-- C10: apply_filters never modifies the caller's input buffer.  At the
heap level, for every heap, every valid input reference r, every filter
mapping and inference results, the buffer at r holds the same frame
after the pipeline as before it, and when the pipeline succeeds the
result is returned in a different, freshly allocated buffer: all stage
mutations happen on the internal copy taken by processed = frame.copy()
at the start of apply_filters. -/
theorem c10_input_buffer_untouched (gbP : PxBlur) (gbG : GrayBlur)
    (bf : Bilateral) (σ : Heap) (r : ℕ) (seg : SegResult) (det : DetResult)
    (filters : Filters) (hr : r < σ.hnext) :
    (apply_filters_heap gbP gbG bf σ r seg det filters).1.buf r = σ.buf r
    ∧ ∀ r2, (apply_filters_heap gbP gbG bf σ r seg det filters).2 = .ok r2 →
        r2 ≠ r := by
  have hA2 : (σ.alloc (σ.buf r)).2 = σ.hnext := rfl
  have hA3 : (σ.alloc (σ.buf r)).1.hnext = σ.hnext + 1 := rfl
  obtain ⟨b1, b2, b3, b4⟩ :=
    pipeHeap1_spec gbP gbG (σ.alloc (σ.buf r)) seg filters (by omega)
  obtain ⟨c1, c2, c3⟩ :=
    pipeHeap2_spec bf (pipeHeap1 gbP gbG (σ.alloc (σ.buf r)) seg filters)
      det filters
  have hbufc : (pipeHeap2 bf (pipeHeap1 gbP gbG (σ.alloc (σ.buf r)) seg filters)
      det filters).1.buf r = σ.buf r := by
    rw [c1 r (by omega) (by omega), b1 r (by omega),
      alloc_buf_frozen σ (σ.buf r) r (by omega)]
  have hnextc : σ.hnext
      < (pipeHeap2 bf (pipeHeap1 gbP gbG (σ.alloc (σ.buf r)) seg filters)
          det filters).1.hnext := by
    rw [c2]
    omega
  obtain ⟨d1, d2, d3⟩ :=
    adjust_colors_heap_spec
      (pipeHeap2 bf (pipeHeap1 gbP gbG (σ.alloc (σ.buf r)) seg filters)
        det filters).1
      (pipeHeap2 bf (pipeHeap1 gbP gbG (σ.alloc (σ.buf r)) seg filters)
        det filters).2
      filters
  simp only [apply_filters_heap]
  cases hM : adjust_colors_heap
      (pipeHeap2 bf (pipeHeap1 gbP gbG (σ.alloc (σ.buf r)) seg filters)
        det filters).1
      (pipeHeap2 bf (pipeHeap1 gbP gbG (σ.alloc (σ.buf r)) seg filters)
        det filters).2
      filters with
  | mk σ3 res =>
    rw [hM] at d1 d2 d3
    dsimp only at d1 d2 d3
    cases res with
    | error e =>
        refine ⟨?_, fun r2 h => Except.noConfusion h⟩
        rw [d1 r (by omega)]
        exact hbufc
    | ok p3 =>
        obtain ⟨e1, e2⟩ := apply_effects_heap_spec gbP σ3 p3 filters
        constructor
        · rw [e1 r (by omega), d1 r (by omega)]
          exact hbufc
        · intro r2 h
          have := e2 r2 h
          have hd3 := d3 p3 rfl
          omega

/-- Witness for c10_input_buffer_untouched on a concrete one-buffer
heap. -/
theorem c10_input_buffer_untouched_witness :
    (apply_filters_heap pxId grayId bfId ⟨1, fun _ => frame22⟩ 0
        (.ok none) (.ok []) defaultFilters).1.buf 0
      = (⟨1, fun _ => frame22⟩ : Heap).buf 0 :=
  (c10_input_buffer_untouched pxId grayId bfId ⟨1, fun _ => frame22⟩ 0
    (.ok none) (.ok []) defaultFilters (by norm_num)).1

end Photobooth
